import Mathlib

/-!
# Verification of the Mavic reddit scraper pipeline

A shallow embedding of `src/reddit/scraper.go` and `src/reddit/json.go`.
Pure helpers from the Go standard library (`strings.Split`, `strings.Contains`,
`strings.Replace`, `strings.TrimSpace`, `path.Join`/`path.Clean`) are modelled
character-exactly over `List Char`; the scraper's own functions are translated
statement by statement.  Run-time panics (nil-pointer dereferences, `log.Panic`)
are modelled with `Except Unit` / explicit outcome constructors, and the
concurrent pipeline (`Start` / `downloadRedditMetadata` / `downloadImages`)
is modelled as a small-step transition system whose reachable states are
analysed by invariant induction.
-/

namespace Mavic

/-! ## Go standard-library string primitives -/

/-- Substring search over character lists: does `sub` occur contiguously in
the second argument? -/
def containsChars (sub : List Char) : List Char → Bool
  | [] => sub.isEmpty
  | c :: rest => sub.isPrefixOf (c :: rest) || containsChars sub rest

/-- `strings.Contains(s, sub)`: `sub` occurs as a contiguous substring of `s`. -/
def goContains (s sub : String) : Bool :=
  containsChars sub.data s.data

/-- `strings.HasSuffix(s, suf)`. -/
def goHasSuffix (s suf : String) : Bool :=
  suf.data.isSuffixOf s.data

/-- `strings.TrimSpace(s)`: drop whitespace from both ends. -/
def goTrimSpace (s : String) : String :=
  ⟨(((s.data.dropWhile Char.isWhitespace).reverse.dropWhile Char.isWhitespace).reverse)⟩

/-- `strings.Split(s, sep)` for a one-character separator, over the character
list.  Always returns at least one (possibly empty) piece. -/
def splitChar (sep : Char) : List Char → List (List Char)
  | [] => [[]]
  | c :: cs =>
    match splitChar sep cs with
    | [] => [[]]
    | s :: ss => if c = sep then [] :: s :: ss else (c :: s) :: ss

/-- `strings.Split(s, "/")` followed by taking the last element:
the final path segment of `s` (the whole of `s` when it has no slash). -/
def lastSeg (s : String) : String :=
  ⟨(splitChar '/' s.data).getLastD []⟩

/-- `strings.Split(s, ".")[0]`: the part of `s` before its first dot. -/
def beforeFirstDot (s : String) : String :=
  ⟨(splitChar '.' s.data).headD []⟩

/-- Worker of `strings.Replace(s, old, new, 1)` for non-empty `old`:
replace the first occurrence of `old` in `s` by `new`. -/
def replaceFirstAux (old new : List Char) : List Char → List Char
  | [] => []
  | c :: rest =>
    if old.isPrefixOf (c :: rest) then new ++ (c :: rest).drop old.length
    else c :: replaceFirstAux old new rest

/-- `strings.Replace(s, old, new, 1)`. An empty `old` inserts `new` once at
the front, as in Go. -/
def goReplace1 (s old new : String) : String :=
  if old.data.isEmpty then ⟨new.data ++ s.data⟩
  else ⟨replaceFirstAux old.data new.data s.data⟩

/-- Segment processing of Go's `path.Clean`: drop empty and `.` segments,
let `..` pop the previous segment (at the root, spurious `..` disappear;
in a relative path leading `..` are kept). -/
def cleanSegs (rooted : Bool) : List String → List String → List String
  | acc, [] => acc
  | acc, seg :: rest =>
    if seg = "" || seg = "." then cleanSegs rooted acc rest
    else if seg = ".." then
      if acc ≠ [] ∧ acc.getLast? ≠ some ".." then cleanSegs rooted acc.dropLast rest
      else if rooted then cleanSegs rooted acc rest
      else cleanSegs rooted (acc ++ [".."]) rest
    else cleanSegs rooted (acc ++ [seg]) rest

/-- Go's `path.Clean`. -/
def goClean (s : String) : String :=
  if s.data = [] then "."
  else
    let rooted := s.data.headD ' ' = '/'
    let segs := cleanSegs rooted [] ((splitChar '/' s.data).map fun l => (⟨l⟩ : String))
    let out := "/".intercalate segs
    if rooted then "/" ++ out
    else if out = "" then "." else out

/-- Go's `path.Join(a, b)`: concatenate with a slash and clean; the result is
empty only when both parts are empty. -/
def goJoin (a b : String) : String :=
  if a = "" && b = "" then ""
  else if a = "" then goClean b
  else goClean (a ++ "/" ++ b)

/-! ## Data model (`json.go`)

Every wire field is a Go pointer (`*string` / `*ChildData`), i.e. optional;
`none` models a `nil` pointer. -/

structure ChildData where
  title : Option String
  domain : Option String
  id : Option String
  author : Option String
  permalink : Option String
  postHint : Option String
  url : Option String
  subreddit : Option String
deriving Repr, DecidableEq

structure Child where
  data : Option ChildData
deriving Repr, DecidableEq

structure ListingData where
  dist : Option Int
  children : List Child
deriving Repr, DecidableEq

structure Listings where
  data : Option ListingData
deriving Repr, DecidableEq

structure Author where
  link : String
  name : String
deriving Repr, DecidableEq

structure Image where
  author : Author
  id : String
  imageId : String
  postLink : String
  link : String
  title : String
  subreddit : String
  source : String
deriving Repr, DecidableEq

/-- Dereference of a Go pointer: `nil` is a run-time panic, modelled as
`Except.error ()`. -/
def deref {α : Type} : Option α → Except Unit α
  | none => .error ()
  | some a => .ok a

/-- The zero value of `Image` (all strings empty), produced by
`make([]Image, n)` in `parseLinksFromListings`. -/
def zeroImage : Image :=
  { author := ⟨"", ""⟩, id := "", imageId := "", postLink := "", link := "",
    title := "", subreddit := "", source := "" }

/-- `redditChildToImage` (`json.go`): converts one listing child, dereferencing
`child.Data` and each of its fields without `nil` checks. -/
def redditChildToImage (child : Child) : Except Unit Image := do
  let d ← deref child.data
  let url ← deref d.url
  let splitUrl := splitChar '/' url.data
  let imageId := beforeFirstDot ⟨splitUrl.getLastD []⟩
  let author ← deref d.author
  let id ← deref d.id
  let permalink ← deref d.permalink
  let title ← deref d.title
  let subreddit ← deref d.subreddit
  let domain ← deref d.domain
  .ok { author := ⟨"https://www.reddit.com/user/" ++ author ++ "/", author⟩,
        id := id, imageId := imageId, postLink := permalink, link := url,
        title := title, subreddit := subreddit, source := domain }

/-- The first loop of `parseLinksFromListings`: keep children whose domain
contains "imgur" or whose post hint contains "image", and whose URL's final
path segment contains a dot.  Accessing `value.Data.Domain` panics when
`Data` is `nil`, and `*value.Data.URL` panics when `URL` is `nil`. -/
def filterLoop : List Child → Except Unit (List Child)
  | [] => .ok []
  | value :: rest => do
    let d ← deref value.data
    let c1 := match d.domain with
      | some dom => goContains dom "imgur"
      | none => false
    let c2 := match d.postHint with
      | some ph => goContains ph "image"
      | none => false
    if c1 || c2 then do
      let url ← deref d.url
      let splitLink := splitChar '/' url.data
      let keep := goContains ⟨splitLink.getLastD []⟩ "."
      let rest2 ← filterLoop rest
      .ok (if keep then value :: rest2 else rest2)
    else
      filterLoop rest

/-- The second loop of `parseLinksFromListings`: the Go code preallocates
`make([]Image, len(filteredList))` and `continue`s (leaving the zero `Image`
in place) when the extracted image id is blank; every slot of the
preallocated slice is returned. -/
def convertLoop : List Child → Except Unit (List Image)
  | [] => .ok []
  | v :: rest => do
    let image ← redditChildToImage v
    let tail ← convertLoop rest
    if goTrimSpace image.imageId = "" then .ok (zeroImage :: tail)
    else .ok (image :: tail)

/-- `parseLinksFromListings` (`scraper.go` 345-386). -/
def parseLinksFromListings (listings : Listings) : Except Unit (List Image) :=
  match listings.data with
  | none => .ok []
  | some d =>
    if d.children.length = 0 then .ok []
    else do
      let filteredList ← filterLoop d.children
      convertLoop filteredList

/-! ## Scraper configuration (`scraper.go`) -/

structure Options where
  ImageLimit : Int
  PageType : String
  FrontPage : Bool
  Subreddits : List String
  OutputDirectory : String
  MaxConcurrentDownloads : Int
  RootFolderOnly : Bool
deriving Repr, DecidableEq

/-- The Go zero value of `Options`, the initial content of
`redditScraper.scrapingOptions` in `NewScraper`. -/
def zeroOptions : Options :=
  { ImageLimit := 0, PageType := "", FrontPage := false, Subreddits := [],
    OutputDirectory := "", MaxConcurrentDownloads := 0, RootFolderOnly := false }

/-- The keys mapped to `true` in `supportedPageTypes`. -/
def supportedPageTypesList : List String :=
  ["hot", "new", "rising", "best",
   "top-hour", "top-week", "top-month", "top-year", "top-all", "top",
   "controversial-hour", "controversial-week", "controversial-month",
   "controversial-year", "controversial-all", "controversial"]

/-- The configuration-carrying part of the `Scraper` struct (the channels and
the dedup map are run-time state, modelled separately). -/
structure Scraper where
  after : Int
  scrapingOptions : Options
  supportedPageTypes : List String
deriving Repr, DecidableEq

/-- `NewScraper` (`scraper.go` 130-165).  `log.Fatalf` on an unsupported page
type is modelled as `none`.  Note the `ImageLimit <= 0 || > 500` branch writes
`50` into `redditScraper.scrapingOptions`, which the final
`redditScraper.scrapingOptions = options` assignment overwrites wholesale. -/
def NewScraper (options : Options) : Option Scraper :=
  let redditScraper : Scraper :=
    { after := 0, scrapingOptions := zeroOptions,
      supportedPageTypes := supportedPageTypesList }
  if ¬ (supportedPageTypesList.contains options.PageType) then none
  else
    let options :=
      if options.ImageLimit > 100 then { options with ImageLimit := 100 } else options
    let redditScraper :=
      if options.ImageLimit ≤ 0 ∨ options.ImageLimit > 500 then
        { redditScraper with
            scrapingOptions := { redditScraper.scrapingOptions with ImageLimit := 50 } }
      else redditScraper
    let options :=
      if options.FrontPage then
        { options with Subreddits := options.Subreddits ++ ["frontpage"] }
      else options
    some { redditScraper with scrapingOptions := options }

/-! ## `gatherRedditFeed` (`scraper.go` 321-340)

The HTTP transport is abstracted to a `NetResult`: either a transport error
(`client.Do` returns a non-nil error, on which the code calls `log.Panic`,
terminating the process) or a body.  The body is abstracted as the result of
`UnmarshalListing`: `none` stands for bytes that fail to unmarshal, which
yield the zero `Listings` plus an error that the caller discards. -/

inductive NetResult
  | transportError
  | ok (body : Option Listings)
deriving Repr, DecidableEq

inductive FetchResult
  | panicked
  | value (listings : Listings) (isErr : Bool)
deriving Repr, DecidableEq

def gatherRedditFeed (sub : String) (net : NetResult) : FetchResult :=
  if goTrimSpace sub = "" then .value ⟨none⟩ true
  else
    match net with
    | .transportError => .panicked
    | .ok none => .value ⟨none⟩ true
    | .ok (some l) => .value l false

/-! ## `downloadMetadata` enqueue loop (`scraper.go` 199-211)

After parsing, the code raises the progress-bar maximum by `len(links)` and
then, for every element of `links`, overwrites its subreddit, inserts its
imageId into the feed's dedup set and sends it on the download channel —
with no membership or emptiness check before either step. -/

/-- `m[k] = true` on a `map[string]bool` used as a set, modelled over a list
of keys. -/
def setInsert (s : List String) (k : String) : List String :=
  if s.contains k then s else s ++ [k]

/-- One pass of the `for _, image := range links` loop: returns the final
dedup set and the list of images sent to `downloadImageChannel`, in order. -/
def enqueueLoop (sub : String) : List String → List Image → List String × List Image
  | dedup, [] => (dedup, [])
  | dedup, image :: rest =>
    let image := { image with subreddit := sub }
    let dedup := setInsert dedup image.imageId
    let (dedupFinal, sent) := enqueueLoop sub dedup rest
    (dedupFinal, image :: sent)

/-- The scheduling effect of `downloadMetadata` for one feed, given the parsed
links: the amount added to the progress-bar maximum (`ChangeMax`, the
"scheduled" counter) and the images enqueued. -/
def downloadMetadataSchedule (sub : String) (dedup0 : List String)
    (links : List Image) : Nat × List String × List Image :=
  (links.length, enqueueLoop sub dedup0 links)

/-- End-to-end per-feed pipeline from the network response to the enqueued
images: `gatherRedditFeed` (error discarded), `parseLinksFromListings`, then
the enqueue loop.  `none` models a run-time panic. -/
def feedEnqueuedImages (sub : String) (net : NetResult) : Option (List Image) :=
  match gatherRedditFeed sub net with
  | .panicked => none
  | .value listings _ =>
    match parseLinksFromListings listings with
    | .error _ => none
    | .ok links => some (downloadMetadataSchedule sub [] links).2.2

/-! ## `downloadImage` worker (`scraper.go` 258-316)

The file system and the HTTP layer are abstracted as oracles.
`fileExists path` is `os.Stat` succeeding (or failing with anything other
than not-exist); `createOk`, `getOk` and `copyOk` are the three fallible
steps that follow.  The function records the terminal `DownloadState` and
every URL passed to `http.Get`. -/

inductive DownloadState
  | DOWNLOADING
  | SUCCESS
  | SKIPPED
  | FAILED
deriving Repr, DecidableEq

structure Env where
  fileExists : String → Bool
  createOk : String → Bool
  getOk : String → Bool
  copyOk : String → Bool

structure RunResult where
  outcome : DownloadState
  gets : List String
  path : String
deriving Repr, DecidableEq

/-- The `RootFolderOnly` adjustment at the top of `downloadImage`:
`outDir = strings.Replace(outDir, img.subreddit, "", 1)`. -/
def adjustedOutDir (s : Options) (outDir : String) (img : Image) : String :=
  if s.RootFolderOnly then goReplace1 outDir img.subreddit "" else outDir

/-- The gifv rewrite: `img.link = img.link[:len(img.link)-4] + "mp4"` when the
link ends in "gifv" (the sliced-off suffix is 4 ASCII bytes, i.e. 4 chars). -/
def rewriteLink (link : String) : String :=
  if goHasSuffix link "gifv" then (⟨link.data.take (link.data.length - 4)⟩ : String) ++ "mp4"
  else link

/-- `imagePath := path.Join(outDir, imageId)` where `imageId` is the final
path segment of the (rewritten) link. -/
def resolvedPath (s : Options) (outDir : String) (img : Image) : String :=
  goJoin (adjustedOutDir s outDir img) (lastSeg (rewriteLink img.link))

/-- `downloadImage` (`scraper.go` 258-316) as a sequential function of the
oracles; the surrounding goroutine calls it with
`outDir = path.Join(s.scrapingOptions.OutputDirectory, img.subreddit)`. -/
def downloadImageRun (s : Options) (outDir : String) (img : Image) (env : Env) :
    RunResult :=
  let link := rewriteLink img.link
  let imagePath := resolvedPath s outDir img
  if env.fileExists imagePath then ⟨.SKIPPED, [], imagePath⟩
  else if env.createOk imagePath = false then ⟨.FAILED, [], imagePath⟩
  else if env.getOk link = false then ⟨.FAILED, [link], imagePath⟩
  else if env.copyOk link = false then ⟨.FAILED, [link], imagePath⟩
  else ⟨.SUCCESS, [link], imagePath⟩

/-- The worker invocation from `downloadImages` (`scraper.go` 246). -/
def workerRun (s : Options) (img : Image) (env : Env) : RunResult :=
  downloadImageRun s (goJoin s.OutputDirectory img.subreddit) img env

/-- The destination file path of a candidate as the pipeline resolves it:
`downloadImages` passes `path.Join(outputDirectory, img.subreddit)` and
`downloadImage` applies the root-folder adjustment, the gifv rewrite and the
final `path.Join` with the file name. -/
def workerPath (s : Options) (img : Image) : String :=
  resolvedPath s (goJoin s.OutputDirectory img.subreddit) img

/-! ## The concurrent pipeline as a transition system

`Start` (`scraper.go` 83-125) spawns `downloadRedditMetadata` and
`downloadImages` and aggregates messages.  We model the run as a small-step
system over an abstract state:

* each metadata-fetcher goroutine (`downloadMetadata`) first raises the
  progress-bar maximum by its link count (`ChangeMax`, the `scheduled`
  counter) and then sends that many images on `downloadImageChannel`,
  finally signalling its `WaitGroup` (`declare` / `enqueue` / `fetcherDone`);
* `downloadRedditMetadata` closes the channel once the `WaitGroup` is drained
  (`closeQueue`);
* `downloadImages` receives from the channel while it is open or non-empty,
  acquiring one semaphore unit before spawning each worker (`spawnWorker`),
  leaves its `range` loop when the channel is closed and empty (`dlExit`),
  and after `waitGroup.Wait()` closes `downloadedMessagePumpChannel`
  (`closeMsg`);
* each worker goroutine finishes with exactly one terminal message —
  Success, Skipped or Failed — releasing its semaphore unit and its
  `WaitGroup` slot (`workerDone`).  (`sem.Acquire` with a background context
  can never return an error, so the error branch at `scraper.go` 241-243 is
  dead.)

The unbuffered channels are modelled as unbounded queues, a sound
over-approximation for the safety properties proved here. -/

/-- A metadata-fetcher goroutine: how many images it still has to enqueue and
whether it has already performed its `ChangeMax` (scheduled-count) step. -/
structure FetcherTask where
  toSchedule : Nat
  declared : Bool
deriving Repr, DecidableEq

/-- Where the `downloadImages` goroutine is. -/
inductive DlPhase
  | looping
  | waitingWorkers
  | finished
deriving Repr, DecidableEq

/-- A worker's terminal message. -/
inductive TerminalMsg
  | success
  | skipped
  | failed
deriving Repr, DecidableEq

structure PipeState where
  fetchers : List FetcherTask
  queueLen : Nat
  queueClosed : Bool
  dlPhase : DlPhase
  sem : Nat
  workers : Nat
  scheduled : Nat
  downloaded : Nat
  skippedCount : Nat
  failedCount : Nat
  msgClosed : Bool
deriving Repr, DecidableEq

/-- A run configuration: the number of links each feed's fetcher will
schedule, and `MaxConcurrentDownloads`. -/
structure PipeConfig where
  feedLinks : List Nat
  maxConcurrent : Nat
deriving Repr, DecidableEq

def initState (cfg : PipeConfig) : PipeState :=
  { fetchers := cfg.feedLinks.map fun n => ⟨n, false⟩
    queueLen := 0
    queueClosed := false
    dlPhase := .looping
    sem := cfg.maxConcurrent
    workers := 0
    scheduled := 0
    downloaded := 0
    skippedCount := 0
    failedCount := 0
    msgClosed := false }

/-- Apply a worker's terminal message to the aggregator's counters
(`Start`, `scraper.go` 98-115). -/
def bumpCounter (s : PipeState) : TerminalMsg → PipeState
  | .success => { s with downloaded := s.downloaded + 1 }
  | .skipped => { s with skippedCount := s.skippedCount + 1 }
  | .failed => { s with failedCount := s.failedCount + 1 }

/-- One interleaving step of the pipeline. -/
inductive PipeStep : PipeState → PipeState → Prop
  | declare (s : PipeState) (l1 l2 : List FetcherTask) (n : Nat)
      (h : s.fetchers = l1 ++ ⟨n, false⟩ :: l2) :
      PipeStep s { s with fetchers := l1 ++ ⟨n, true⟩ :: l2,
                          scheduled := s.scheduled + n }
  | enqueue (s : PipeState) (l1 l2 : List FetcherTask) (n : Nat)
      (h : s.fetchers = l1 ++ ⟨n + 1, true⟩ :: l2) :
      PipeStep s { s with fetchers := l1 ++ ⟨n, true⟩ :: l2,
                          queueLen := s.queueLen + 1 }
  | fetcherDone (s : PipeState) (l1 l2 : List FetcherTask)
      (h : s.fetchers = l1 ++ ⟨0, true⟩ :: l2) :
      PipeStep s { s with fetchers := l1 ++ l2 }
  | closeQueue (s : PipeState) (h : s.fetchers = []) (h2 : s.queueClosed = false) :
      PipeStep s { s with queueClosed := true }
  | spawnWorker (s : PipeState) (q m : Nat)
      (hphase : s.dlPhase = .looping) (hq : s.queueLen = q + 1) (hsem : s.sem = m + 1) :
      PipeStep s { s with queueLen := q, sem := m, workers := s.workers + 1 }
  | dlExit (s : PipeState)
      (hphase : s.dlPhase = .looping) (hclosed : s.queueClosed = true)
      (hq : s.queueLen = 0) :
      PipeStep s { s with dlPhase := .waitingWorkers }
  | workerDone (s : PipeState) (w : Nat) (msg : TerminalMsg)
      (hw : s.workers = w + 1) :
      PipeStep s { bumpCounter s msg with workers := w, sem := s.sem + 1 }
  | closeMsg (s : PipeState)
      (hphase : s.dlPhase = .waitingWorkers) (hw : s.workers = 0) :
      PipeStep s { s with msgClosed := true, dlPhase := .finished }

/-- The states a run of `Start` can reach. -/
inductive PipeReachable (cfg : PipeConfig) : PipeState → Prop
  | init : PipeReachable cfg (initState cfg)
  | step {s s' : PipeState} :
      PipeReachable cfg s → PipeStep s s' → PipeReachable cfg s'

/-- Images still to be enqueued by fetchers that have already been counted
into `scheduled`. -/
def fetchPending (l : List FetcherTask) : Nat :=
  (l.map fun f => if f.declared then f.toSchedule else 0).sum

/-- The inductive invariant of the pipeline. -/
def PipeInv (cfg : PipeConfig) (s : PipeState) : Prop :=
  (s.queueClosed = true → s.fetchers = []) ∧
  (s.dlPhase ≠ .looping → s.queueClosed = true ∧ s.queueLen = 0) ∧
  (s.msgClosed = true → s.dlPhase = .finished) ∧
  (s.dlPhase = .finished → s.workers = 0) ∧
  (s.sem + s.workers = cfg.maxConcurrent) ∧
  (s.scheduled =
    fetchPending s.fetchers + s.queueLen + s.workers +
      (s.downloaded + s.skippedCount + s.failedCount))

theorem fetchPending_mid (l1 l2 : List FetcherTask) (f : FetcherTask) :
    fetchPending (l1 ++ f :: l2) =
      fetchPending l1 + ((if f.declared then f.toSchedule else 0) + fetchPending l2) := by
  simp [fetchPending]

theorem fetchPending_append (l1 l2 : List FetcherTask) :
    fetchPending (l1 ++ l2) = fetchPending l1 + fetchPending l2 := by
  simp [fetchPending]

theorem fetchPending_undeclared (ns : List Nat) :
    fetchPending (ns.map fun n => (⟨n, false⟩ : FetcherTask)) = 0 := by
  induction ns with
  | nil => simp [fetchPending]
  | cons a l ih =>
    simp [fetchPending] at ih ⊢
    exact ih

theorem pipeInv_init (cfg : PipeConfig) : PipeInv cfg (initState cfg) := by
  refine ⟨?_, ?_, ?_, ?_, ?_, ?_⟩ <;>
    simp [initState, PipeInv, fetchPending_undeclared]

theorem pipeInv_step {cfg : PipeConfig} {s s' : PipeState}
    (hinv : PipeInv cfg s) (hstep : PipeStep s s') : PipeInv cfg s' := by
  obtain ⟨h1, h2, h3, h4, h5, h6⟩ := hinv
  cases hstep with
  | declare l1 l2 n h =>
    refine ⟨?_, h2, h3, h4, h5, ?_⟩
    · intro hq
      rw [h1 hq] at h
      simp at h
    · show s.scheduled + n = fetchPending (l1 ++ ⟨n, true⟩ :: l2) + s.queueLen + s.workers +
        (s.downloaded + s.skippedCount + s.failedCount)
      rw [h, fetchPending_mid] at h6
      rw [fetchPending_mid]
      simp at h6 ⊢
      omega
  | enqueue l1 l2 n h =>
    refine ⟨?_, ?_, h3, h4, h5, ?_⟩
    · intro hq
      rw [h1 hq] at h
      simp at h
    · intro hp
      exfalso
      have hc := (h2 hp).1
      rw [h1 hc] at h
      simp at h
    · show s.scheduled = fetchPending (l1 ++ ⟨n, true⟩ :: l2) + (s.queueLen + 1) + s.workers +
        (s.downloaded + s.skippedCount + s.failedCount)
      rw [h, fetchPending_mid] at h6
      rw [fetchPending_mid]
      simp at h6 ⊢
      omega
  | fetcherDone l1 l2 h =>
    refine ⟨?_, h2, h3, h4, h5, ?_⟩
    · intro hq
      rw [h1 hq] at h
      simp at h
    · show s.scheduled = fetchPending (l1 ++ l2) + s.queueLen + s.workers +
        (s.downloaded + s.skippedCount + s.failedCount)
      rw [h, fetchPending_mid] at h6
      rw [fetchPending_append]
      simp at h6 ⊢
      omega
  | closeQueue h h2' =>
    exact ⟨fun _ => h, fun hp => ⟨rfl, (h2 hp).2⟩, h3, h4, h5, h6⟩
  | spawnWorker q m hphase hq hsem =>
    refine ⟨h1, ?_, h3, ?_, ?_, ?_⟩
    · intro hp
      exact absurd hphase hp
    · intro hf
      simp only [hphase] at hf
      exact absurd hf (by simp)
    · show m + (s.workers + 1) = cfg.maxConcurrent
      omega
    · show s.scheduled = fetchPending s.fetchers + q + (s.workers + 1) +
        (s.downloaded + s.skippedCount + s.failedCount)
      omega
  | dlExit hphase hclosed hq =>
    refine ⟨h1, fun _ => ⟨hclosed, hq⟩, ?_, ?_, h5, h6⟩
    · intro hm
      have hf := h3 hm
      rw [hphase] at hf
      exact absurd hf (by simp)
    · intro hf
      exact absurd hf (by simp)
  | workerDone w msg hw =>
    cases msg with
    | success =>
      refine ⟨h1, h2, h3, ?_, ?_, ?_⟩
      · intro hf
        have hz := h4 hf
        show w = 0
        omega
      · show s.sem + 1 + w = cfg.maxConcurrent
        omega
      · show s.scheduled = fetchPending s.fetchers + s.queueLen + w +
          (s.downloaded + 1 + s.skippedCount + s.failedCount)
        omega
    | skipped =>
      refine ⟨h1, h2, h3, ?_, ?_, ?_⟩
      · intro hf
        have hz := h4 hf
        show w = 0
        omega
      · show s.sem + 1 + w = cfg.maxConcurrent
        omega
      · show s.scheduled = fetchPending s.fetchers + s.queueLen + w +
          (s.downloaded + (s.skippedCount + 1) + s.failedCount)
        omega
    | failed =>
      refine ⟨h1, h2, h3, ?_, ?_, ?_⟩
      · intro hf
        have hz := h4 hf
        show w = 0
        omega
      · show s.sem + 1 + w = cfg.maxConcurrent
        omega
      · show s.scheduled = fetchPending s.fetchers + s.queueLen + w +
          (s.downloaded + s.skippedCount + (s.failedCount + 1))
        omega
  | closeMsg hphase hw =>
    refine ⟨h1, ?_, fun _ => rfl, fun _ => hw, h5, h6⟩
    intro _
    have hp : s.dlPhase ≠ .looping := by
      rw [hphase]
      simp
    exact h2 hp

theorem pipeInv_reachable {cfg : PipeConfig} {s : PipeState}
    (h : PipeReachable cfg s) : PipeInv cfg s := by
  induction h with
  | init => exact pipeInv_init cfg
  | step _ hstep ih => exact pipeInv_step ih hstep

/-! ## Auxiliary lemmas about the string primitives -/

theorem splitChar_ne_nil (sep : Char) (l : List Char) : splitChar sep l ≠ [] := by
  cases l with
  | nil => simp [splitChar]
  | cons c cs =>
    cases h : splitChar sep cs with
    | nil => simp [splitChar, h]
    | cons s ss =>
      simp only [splitChar, h]
      split <;> simp

theorem splitChar_sepFree (sep : Char) (ys : List Char) (h : ∀ c ∈ ys, c ≠ sep) :
    splitChar sep ys = [ys] := by
  induction ys with
  | nil => rfl
  | cons c cs ih =>
    have hcs := ih fun x hx => h x (List.mem_cons_of_mem c hx)
    simp only [splitChar, hcs]
    rw [if_neg (h c (List.mem_cons_self c cs))]

/-- Appending a separator-free tail to a string extends its final
split piece: the tail is a suffix of the last piece of the split. -/
theorem suffix_lastPiece_append (sep : Char) (ys : List Char)
    (hys : ∀ c ∈ ys, c ≠ sep) :
    ∀ l : List Char, ys <:+ (splitChar sep (l ++ ys)).getLastD [] := by
  intro l
  induction l with
  | nil =>
    rw [List.nil_append, splitChar_sepFree sep ys hys]
    simp
  | cons c l ih =>
    rw [List.cons_append]
    cases hsp : splitChar sep (l ++ ys) with
    | nil => exact absurd hsp (splitChar_ne_nil sep _)
    | cons s ss =>
      rw [hsp] at ih
      by_cases hc : c = sep
      · simp only [splitChar, hsp, if_pos hc, List.getLastD_cons] at ih ⊢
        exact ih
      · simp only [splitChar, hsp, if_neg hc, List.getLastD_cons] at ih ⊢
        cases ss with
        | nil =>
          simp only [List.getLastD_nil] at ih ⊢
          exact ih.trans (List.suffix_cons c s)
        | cons u us =>
          simp only [List.getLastD_cons] at ih ⊢
          exact ih

/-- The final path segment of `s ++ "mp4"` ends in "mp4". -/
theorem lastSeg_append_mp4 (s : String) :
    goHasSuffix (lastSeg (s ++ "mp4")) "mp4" = true := by
  cases s with
  | mk d =>
    show (['m', 'p', '4'].isSuffixOf ((splitChar '/' (d ++ ['m', 'p', '4'])).getLastD []))
      = true
    exact List.isSuffixOf_iff_suffix.mpr
      (suffix_lastPiece_append '/' ['m', 'p', '4'] (by decide) d)

/-- A link ending in "gifv" decomposes as `p ++ "gifv"`, and the worker's
rewrite replaces exactly that suffix by "mp4". -/
theorem rewriteLink_gifv (s : String) (h : goHasSuffix s "gifv" = true) :
    ∃ p : String, s = p ++ "gifv" ∧ rewriteLink s = p ++ "mp4" := by
  obtain ⟨t, ht⟩ := List.isSuffixOf_iff_suffix.mp h
  cases s with
  | mk d =>
    refine ⟨⟨t⟩, ?_, ?_⟩
    · rw [show (String.mk t ++ "gifv") = String.mk (t ++ "gifv".data) from rfl, ht]
    · rw [rewriteLink, if_pos h]
      have ht2 : t ++ "gifv".data = d := ht
      have hlen : d.length - 4 = t.length := by
        rw [← ht2]
        simp
      show String.mk (d.take (d.length - 4)) ++ "mp4" = String.mk t ++ "mp4"
      rw [hlen, ← ht2]
      rw [show ("gifv" : String).data = ['g', 'i', 'f', 'v'] from rfl]
      rw [List.take_left]

/-- A link not ending in "gifv" is left unchanged by the rewrite. -/
theorem rewriteLink_of_not_gifv (s : String) (h : goHasSuffix s "gifv" = false) :
    rewriteLink s = s := by
  rw [rewriteLink, if_neg (by simp [h])]

/-- Every URL `downloadImage` passes to `http.Get` is the rewritten link. -/
theorem downloadImageRun_gets (s : Options) (outDir : String) (img : Image) (env : Env) :
    ∀ u ∈ (downloadImageRun s outDir img env).gets, u = rewriteLink img.link := by
  intro u hu
  rw [downloadImageRun] at hu
  split at hu
  · simp at hu
  · split at hu
    · simp at hu
    · split at hu
      · simp at hu
        exact hu
      · split at hu <;> simpa using hu

/-- The file path `downloadImage` stats, creates and writes is the resolved
path, on every branch. -/
theorem downloadImageRun_path (s : Options) (outDir : String) (img : Image) (env : Env) :
    (downloadImageRun s outDir img env).path = resolvedPath s outDir img := by
  rw [downloadImageRun]
  split
  · rfl
  · split
    · rfl
    · split
      · rfl
      · split <;> rfl

/-- `downloadImage` on an already-existing file: Skipped, no network call. -/
theorem downloadImageRun_exists (s : Options) (outDir : String) (img : Image) (env : Env)
    (h : env.fileExists (resolvedPath s outDir img) = true) :
    downloadImageRun s outDir img env = ⟨.SKIPPED, [], resolvedPath s outDir img⟩ := by
  rw [downloadImageRun]
  rw [if_pos h]

theorem pipeStep_scheduled_mono {s s' : PipeState} (h : PipeStep s s') :
    s.scheduled ≤ s'.scheduled := by
  cases h with
  | declare l1 l2 n hf => exact Nat.le_add_right _ _
  | enqueue l1 l2 n hf => exact Nat.le_refl _
  | fetcherDone l1 l2 hf => exact Nat.le_refl _
  | closeQueue hf hc => exact Nat.le_refl _
  | spawnWorker q m hp hq hsem => exact Nat.le_refl _
  | dlExit hp hc hq => exact Nat.le_refl _
  | workerDone w msg hw => cases msg <;> exact Nat.le_refl _
  | closeMsg hp hw => exact Nat.le_refl _

/-! ## Shared concrete sample data for witnesses -/

/-- An oracle environment where every file exists and every operation
succeeds. -/
def allTrueEnv : Env :=
  ⟨fun _ => true, fun _ => true, fun _ => true, fun _ => true⟩

/-- A plain valid configuration. -/
def sampleOpts : Options :=
  { ImageLimit := 50, PageType := "hot", FrontPage := false, Subreddits := ["pics"],
    OutputDirectory := "/out", MaxConcurrentDownloads := 4, RootFolderOnly := false }

/-! ## Claim C1 -/

/-- A filter-passing child (imgur domain, direct image URL) for a given URL. -/
def c1Child (u : String) : Child :=
  ⟨some ⟨some "t", some "i.imgur.com", some "i", some "au", some "pl", none,
         some u, some "pics"⟩⟩

/-- A feed of 5 filter-passing entries in which the first and the last share
the imageId "a". -/
def c1Listing : Listings :=
  ⟨some ⟨none, [c1Child "a.jpg", c1Child "b.jpg", c1Child "c.jpg",
                c1Child "d.jpg", c1Child "a.jpg"]⟩⟩

/-- C1: the claim states that entries with an empty or already-seen imageId
are dropped before enqueue and that 5 raw entries with 2 sharing an imageId
schedule exactly 4 distinct candidates.  The code does neither: the enqueue
loop of `downloadMetadata` inserts into the dedup set and sends on the
channel unconditionally, so this feed raises the scheduled count by 5 and
enqueues 5 images, with imageId "a" entering the Download Queue twice. -/
theorem c1_dedup_not_applied :
    ∃ links : List Image,
      parseLinksFromListings c1Listing = .ok links ∧
      (downloadMetadataSchedule "pics" [] links).1 = 5 ∧
      ((downloadMetadataSchedule "pics" [] links).2.2.map Image.imageId)
        = ["a", "b", "c", "d", "a"] ∧
      (downloadMetadataSchedule "pics" [] links).2.1 = ["a", "b", "c", "d"] :=
  ⟨_, rfl, rfl, rfl, rfl⟩

/-! ## Claim C2 -/

/-- C2 counterexample: a feed whose metadata fetch fails with a transport
error is not recovered locally — `gatherRedditFeed` hits `log.Panic`, which
terminates the whole process (so sibling feeds do not continue and the feed
does not yield an empty listing). -/
theorem c2_network_error_panics :
    gatherRedditFeed "pics" NetResult.transportError = FetchResult.panicked ∧
    feedEnqueuedImages "pics" NetResult.transportError = none ∧
    ∀ (l : Listings) (e : Bool), FetchResult.panicked ≠ FetchResult.value l e :=
  ⟨rfl, rfl, fun _ _ h => FetchResult.noConfusion h⟩

/-- C2 (amended): a metadata fetch failure that surfaces as a Go error value
— a malformed or empty payload (or a blank feed name) — is recovered at the
feed's scope: the feed yields the zero listing, which parses to an empty
candidate list, so 0 items are scheduled; but a transport-level network
failure instead calls `log.Panic`, terminating the process. -/
theorem c2_error_value_recovered (sub : String) :
    gatherRedditFeed sub (NetResult.ok none) = FetchResult.value ⟨none⟩ true ∧
    parseLinksFromListings ⟨none⟩ = .ok [] ∧
    feedEnqueuedImages sub (NetResult.ok none) = some [] ∧
    (goTrimSpace sub ≠ "" →
      gatherRedditFeed sub NetResult.transportError = FetchResult.panicked) := by
  have h1 : gatherRedditFeed sub (NetResult.ok none) = FetchResult.value ⟨none⟩ true := by
    rw [gatherRedditFeed]
    split <;> rfl
  refine ⟨h1, rfl, ?_, ?_⟩
  · rw [feedEnqueuedImages, h1]
    rfl
  · intro hs
    rw [gatherRedditFeed, if_neg hs]

/-- C2 witness: the amended statement at the concrete feed "pics". -/
theorem c2_error_value_recovered_witness :
    gatherRedditFeed "pics" (NetResult.ok none) = FetchResult.value ⟨none⟩ true ∧
    feedEnqueuedImages "pics" (NetResult.ok none) = some [] ∧
    gatherRedditFeed "pics" NetResult.transportError = FetchResult.panicked := by
  obtain ⟨h1, _, h3, h4⟩ := c2_error_value_recovered "pics"
  exact ⟨h1, h3, h4 (by decide)⟩

/-! ## Claim C4 -/

/-- A listing whose single child passes the imgur-domain filter but has no
`url` field. -/
def c4NoUrlListing : Listings :=
  ⟨some ⟨none, [⟨some ⟨none, some "i.imgur.com", none, none, none, none, none, none⟩⟩]⟩⟩

/-- A listing whose single child passes the filter and has a direct-image
`url` but lacks `author` (and `id`, `permalink`, `title`, `subreddit`). -/
def c4NoAuthorListing : Listings :=
  ⟨some ⟨none, [⟨some ⟨none, some "i.imgur.com", none, none, none, none,
                       some "a.jpg", none⟩⟩]⟩⟩

/-- A listing whose single child has a `nil` `data` pointer. -/
def c4NilDataListing : Listings :=
  ⟨some ⟨none, [⟨none⟩]⟩⟩

/-- C4: the claim states the metadata-parsing stage handles any combination
of absent fields without crashing.  The code does not: a filter-passing
entry lacking `url` panics on the `*value.Data.URL` dereference in
`parseLinksFromListings`, one lacking `author` (or `id`, `permalink`,
`title`, `subreddit`) panics inside `redditChildToImage`, and a child with a
`nil` `data` pointer panics on `value.Data.Domain` in the filter. -/
theorem c4_absent_fields_panic :
    parseLinksFromListings c4NoUrlListing = .error () ∧
    parseLinksFromListings c4NoAuthorListing = .error () ∧
    parseLinksFromListings c4NilDataListing = .error () :=
  ⟨rfl, rfl, rfl⟩

/-! ## Claim C7 -/

/-- Options with root-folder-only set and an output directory that contains
the feed name "pics" as a substring. -/
def c7Opts : Options :=
  { ImageLimit := 50, PageType := "hot", FrontPage := false, Subreddits := ["pics"],
    OutputDirectory := "/picstore", MaxConcurrentDownloads := 4, RootFolderOnly := true }

/-- A candidate from feed "pics" with a direct image link. -/
def c7Img : Image :=
  { zeroImage with subreddit := "pics", imageId := "a",
                   link := "https://i.imgur.com/a.jpg" }

/-- C7: the claim states the root-folder-only destination is exactly
`<outputDir>/<filename>` for every output directory and feed name.  The code
computes it by deleting the FIRST occurrence of the feed name from
`<outputDir>/<feed>` (`strings.Replace(outDir, img.subreddit, "", 1)`), so
when the feed name occurs as a substring of the output directory the file
lands at a mangled path: here `/tore/pics/a.jpg` instead of
`/picstore/a.jpg`.  The default (non-root) layout at the same input is the
claimed `<outputDir>/<feed>/<filename>`. -/
theorem c7_root_folder_path_mangled :
    workerPath c7Opts c7Img = "/tore/pics/a.jpg" ∧
    ("/tore/pics/a.jpg" : String) ≠ "/picstore/a.jpg" ∧
    workerPath { c7Opts with RootFolderOnly := false } c7Img = "/picstore/pics/a.jpg" :=
  ⟨rfl, by decide, rfl⟩

/-! ## Claim C10 -/

/-- C10: `NewScraper` clamps the limit to 100 when it exceeds 100 and
otherwise passes it through unchanged — including non-positive values,
because the `<= 0 || > 500` fallback writes 50 into a field that the final
whole-struct assignment `redditScraper.scrapingOptions = options`
immediately overwrites. -/
theorem c10_imageLimit (opts : Options) (scr : Scraper)
    (h : NewScraper opts = some scr) :
    scr.scrapingOptions.ImageLimit =
      if opts.ImageLimit > 100 then 100 else opts.ImageLimit := by
  rw [NewScraper] at h
  split at h
  · exact absurd h (by simp)
  · simp only [Option.some_inj] at h
    subst h
    by_cases h100 : opts.ImageLimit > 100 <;>
      by_cases hfp : opts.FrontPage <;>
        simp [h100, hfp]

/-- Options with a negative limit, exercising the dead fallback branch. -/
def c10Opts : Options :=
  { ImageLimit := -5, PageType := "hot", FrontPage := false, Subreddits := [],
    OutputDirectory := "", MaxConcurrentDownloads := 0, RootFolderOnly := false }

/-- C10 witness: a limit of -5 is passed through as -5, not replaced by 50. -/
theorem c10_imageLimit_witness :
    ∃ scr : Scraper, NewScraper c10Opts = some scr ∧
      scr.scrapingOptions.ImageLimit = -5 := by
  have h : NewScraper c10Opts = some ⟨0, c10Opts, supportedPageTypesList⟩ := by decide
  have h2 := c10_imageLimit c10Opts ⟨0, c10Opts, supportedPageTypesList⟩ h
  refine ⟨_, h, ?_⟩
  rw [h2]
  decide

/-! ## Claim C3 -/

/-- C3: in every reachable pipeline state, the Download Queue is closed only
after every metadata fetcher has completed, the StateMessage stream is closed
only after the queue is closed and drained and every worker has finished,
an active fetcher (a potential producer) implies the queue is still open,
and an in-flight worker (a potential emitter) implies the message stream is
still open. -/
theorem c3_staged_shutdown (cfg : PipeConfig) (s : PipeState)
    (h : PipeReachable cfg s) :
    (s.queueClosed = true → s.fetchers = []) ∧
    (s.msgClosed = true → s.workers = 0 ∧ s.queueClosed = true ∧ s.queueLen = 0) ∧
    (s.fetchers ≠ [] → s.queueClosed = false) ∧
    (0 < s.workers → s.msgClosed = false) := by
  obtain ⟨h1, h2, h3, h4, h5, h6⟩ := pipeInv_reachable h
  refine ⟨h1, ?_, ?_, ?_⟩
  · intro hm
    have hph := h3 hm
    have hw := h4 hph
    have hnl : s.dlPhase ≠ .looping := by
      rw [hph]
      simp
    exact ⟨hw, (h2 hnl).1, (h2 hnl).2⟩
  · intro hf
    cases hqc : s.queueClosed with
    | false => rfl
    | true => exact absurd (h1 hqc) hf
  · intro hw
    cases hmc : s.msgClosed with
    | false => rfl
    | true =>
      have hw0 := h4 (h3 hmc)
      omega

/-- C3 witness: the property instantiated at the initial state of a two-feed,
three-worker run. -/
theorem c3_staged_shutdown_witness :
    ((initState ⟨[2, 1], 3⟩).queueClosed = true → (initState ⟨[2, 1], 3⟩).fetchers = []) ∧
    ((initState ⟨[2, 1], 3⟩).msgClosed = true →
      (initState ⟨[2, 1], 3⟩).workers = 0 ∧
      (initState ⟨[2, 1], 3⟩).queueClosed = true ∧
      (initState ⟨[2, 1], 3⟩).queueLen = 0) ∧
    ((initState ⟨[2, 1], 3⟩).fetchers ≠ [] → (initState ⟨[2, 1], 3⟩).queueClosed = false) ∧
    (0 < (initState ⟨[2, 1], 3⟩).workers → (initState ⟨[2, 1], 3⟩).msgClosed = false) :=
  c3_staged_shutdown ⟨[2, 1], 3⟩ (initState ⟨[2, 1], 3⟩) PipeReachable.init

/-! ## Claim C5 -/

/-- C5: in every reachable pipeline state, the scheduled counter never
decreases across a step (it grows only by fetcher scheduling), the sum
downloaded + skipped + failed never exceeds scheduled, and once the message
stream is closed the sum equals scheduled. -/
theorem c5_counter_invariants (cfg : PipeConfig) (s : PipeState)
    (h : PipeReachable cfg s) :
    (∀ s' : PipeState, PipeStep s s' → s.scheduled ≤ s'.scheduled) ∧
    (s.downloaded + s.skippedCount + s.failedCount ≤ s.scheduled) ∧
    (s.msgClosed = true →
      s.downloaded + s.skippedCount + s.failedCount = s.scheduled) := by
  obtain ⟨h1, h2, h3, h4, h5, h6⟩ := pipeInv_reachable h
  refine ⟨fun s' hs => pipeStep_scheduled_mono hs, by omega, ?_⟩
  intro hm
  have hph := h3 hm
  have hw := h4 hph
  have hnl : s.dlPhase ≠ .looping := by
    rw [hph]
    simp
  have hq0 := (h2 hnl).2
  have hfe := h1 (h2 hnl).1
  rw [hfe] at h6
  simp [fetchPending] at h6
  omega

/-- C5 witness: the counter invariants instantiated at the initial state of a
two-feed, three-worker run. -/
theorem c5_counter_invariants_witness :
    (∀ s' : PipeState, PipeStep (initState ⟨[2, 1], 3⟩) s' →
      (initState ⟨[2, 1], 3⟩).scheduled ≤ s'.scheduled) ∧
    ((initState ⟨[2, 1], 3⟩).downloaded + (initState ⟨[2, 1], 3⟩).skippedCount +
        (initState ⟨[2, 1], 3⟩).failedCount ≤ (initState ⟨[2, 1], 3⟩).scheduled) ∧
    ((initState ⟨[2, 1], 3⟩).msgClosed = true →
      (initState ⟨[2, 1], 3⟩).downloaded + (initState ⟨[2, 1], 3⟩).skippedCount +
          (initState ⟨[2, 1], 3⟩).failedCount = (initState ⟨[2, 1], 3⟩).scheduled) :=
  c5_counter_invariants ⟨[2, 1], 3⟩ (initState ⟨[2, 1], 3⟩) PipeReachable.init

/-! ## Claim C6 -/

/-- C6: for any configured bound N ≥ 1, no reachable pipeline state has more
than N workers in flight — each spawn consumes one semaphore unit before the
transfer starts and every completion path returns it, so
sem + workers = N is invariant and workers ≤ N always; the semaphore is one
shared gate across all feeds. -/
theorem c6_concurrency_bound (cfg : PipeConfig) (s : PipeState)
    (hN : 1 ≤ cfg.maxConcurrent) (h : PipeReachable cfg s) :
    s.workers ≤ cfg.maxConcurrent := by
  obtain ⟨-, -, -, -, h5, -⟩ := pipeInv_reachable h
  omega

/-- C6 witness: the bound instantiated at the initial state of a one-feed,
two-worker run. -/
theorem c6_concurrency_bound_witness :
    (initState ⟨[1], 2⟩).workers ≤ (⟨[1], 2⟩ : PipeConfig).maxConcurrent :=
  c6_concurrency_bound ⟨[1], 2⟩ (initState ⟨[1], 2⟩) (by decide) PipeReachable.init

/-! ## Claim C8 -/

/-- C8: a dequeued candidate whose resolved output path already names an
existing file is Skipped with no network call, and a run over a list of
candidates whose resolved paths all exist yields only Skipped outcomes —
no Success and no Failed. -/
theorem c8_existing_file_skipped (s : Options) (outDir : String) (env : Env) :
    (∀ img : Image, env.fileExists (resolvedPath s outDir img) = true →
      (downloadImageRun s outDir img env).outcome = .SKIPPED ∧
      (downloadImageRun s outDir img env).gets = []) ∧
    (∀ imgs : List Image,
      (∀ img ∈ imgs, env.fileExists (resolvedPath s outDir img) = true) →
      (imgs.map fun img => (downloadImageRun s outDir img env).outcome)
        = List.replicate imgs.length .SKIPPED) := by
  have hone : ∀ img : Image, env.fileExists (resolvedPath s outDir img) = true →
      (downloadImageRun s outDir img env).outcome = .SKIPPED ∧
      (downloadImageRun s outDir img env).gets = [] := by
    intro img hex
    rw [downloadImageRun_exists s outDir img env hex]
    exact ⟨rfl, rfl⟩
  refine ⟨hone, ?_⟩
  intro imgs hall
  induction imgs with
  | nil => rfl
  | cons a l ih =>
    have ha := (hone a (hall a (List.mem_cons_self a l))).1
    have hl := ih fun img hm => hall img (List.mem_cons_of_mem a hm)
    simp only [List.map_cons, List.length_cons, List.replicate_succ]
    rw [ha, hl]

/-- C8 witness: with an oracle under which every file exists, a concrete
candidate is Skipped without a network call. -/
theorem c8_existing_file_skipped_witness :
    (downloadImageRun sampleOpts "/out/pics" c7Img allTrueEnv).outcome
        = DownloadState.SKIPPED ∧
    (downloadImageRun sampleOpts "/out/pics" c7Img allTrueEnv).gets = [] :=
  (c8_existing_file_skipped sampleOpts "/out/pics" allTrueEnv).1 c7Img rfl

/-! ## Claim C9 -/

/-- C9: a candidate link ending in "gifv" has exactly that suffix replaced by
"mp4" before any other step — every URL the worker passes to the GET is the
rewritten link, the resolved file path uses the final path segment of the
rewritten link, and that file name ends in "mp4"; a link not ending in
"gifv" is left unchanged. -/
theorem c9_gifv_rewrite (s : Options) (outDir : String) (img : Image) (env : Env) :
    (goHasSuffix img.link "gifv" = true →
      (∃ p : String, img.link = p ++ "gifv" ∧ rewriteLink img.link = p ++ "mp4") ∧
      (∀ u ∈ (downloadImageRun s outDir img env).gets, u = rewriteLink img.link) ∧
      (downloadImageRun s outDir img env).path =
        goJoin (adjustedOutDir s outDir img) (lastSeg (rewriteLink img.link)) ∧
      goHasSuffix (lastSeg (rewriteLink img.link)) "mp4" = true) ∧
    (goHasSuffix img.link "gifv" = false →
      rewriteLink img.link = img.link ∧
      ∀ u ∈ (downloadImageRun s outDir img env).gets, u = img.link) := by
  constructor
  · intro hsuf
    obtain ⟨p, hp1, hp2⟩ := rewriteLink_gifv img.link hsuf
    refine ⟨⟨p, hp1, hp2⟩, downloadImageRun_gets s outDir img env, ?_, ?_⟩
    · rw [downloadImageRun_path]
      rfl
    · rw [hp2]
      exact lastSeg_append_mp4 p
  · intro hsuf
    have hr := rewriteLink_of_not_gifv img.link hsuf
    refine ⟨hr, ?_⟩
    intro u hu
    rw [← hr]
    exact downloadImageRun_gets s outDir img env u hu

/-- A candidate whose link ends in "gifv". -/
def c9Img : Image :=
  { zeroImage with subreddit := "pics", imageId := "x",
                   link := "https://i.imgur.com/x.gifv" }

/-- C9 witness: the gifv half of the claim at a concrete link. -/
theorem c9_gifv_rewrite_witness :
    (∃ p : String, c9Img.link = p ++ "gifv" ∧ rewriteLink c9Img.link = p ++ "mp4") ∧
    (∀ u ∈ (downloadImageRun sampleOpts "/out/pics" c9Img allTrueEnv).gets,
      u = rewriteLink c9Img.link) ∧
    (downloadImageRun sampleOpts "/out/pics" c9Img allTrueEnv).path =
      goJoin (adjustedOutDir sampleOpts "/out/pics" c9Img) (lastSeg (rewriteLink c9Img.link)) ∧
    goHasSuffix (lastSeg (rewriteLink c9Img.link)) "mp4" = true :=
  (c9_gifv_rewrite sampleOpts "/out/pics" c9Img allTrueEnv).1 rfl

end Mavic
